import Mathlib

/-!
Shallow embedding of the core of the Document-Compliance-Checker repository
(files `app/services/modify.py`, `app/services/security.py`,
`app/services/cache.py`), together with theorems settling the frozen claims
about the caching/validation/patching pipeline.

Conventions of the embedding:
* Python `bytes` values are `List Nat` (each element a byte value 0..255).
* Python `str` values are Lean `String` (or `List Char` where splicing
  arithmetic is the point, as in the text patcher).
* Dictionaries appearing as records with a fixed shape become structures;
  the JSON values stored by the cache become an inductive `JsonVal`.
* File-system state touched by the cache is passed explicitly: the cache
  directory is an association list from keys to stored files, and the clock
  (`time.time()`) is an explicit `now : Nat` argument.
-/

namespace DocCheck

/-- `listStartsWith pre l` is Python `l.startswith(pre)` on bytes:
`pre` is a prefix of `l`. -/
def listStartsWith : List Nat → List Nat → Bool
  | [], _ => true
  | _ :: _, [] => false
  | a :: as, b :: bs => a == b && listStartsWith as bs

/-- `listContains needle hay` is Python `needle in hay` on bytes:
`needle` occurs as a contiguous substring of `hay`. -/
def listContains (needle : List Nat) : List Nat → Bool
  | [] => listStartsWith needle []
  | b :: bs => listStartsWith needle (b :: bs) || listContains needle bs

/-- Byte values of an ASCII string literal (models Python `b'...'`). -/
def strBytes (s : String) : List Nat := s.data.map Char.toNat

/-! ## Text patcher — `app/services/modify.py`, `apply_ai_context_improvements` -/

/-- One entry of the `enhanced_issues` list consumed by
`apply_ai_context_improvements`.  The source reads the fields with
`issue.get('offset', 0)` / `issue.get('length', 0)` (defaulting to `0`), so
`offset` and `length` are total here; `context_improvement` is `none` when the
key is absent (Python `None`), and `enhanced` is the truthiness of the
`enhanced` flag. -/
structure GrammarIssue where
  offset : Nat
  length : Nat
  context_improvement : Option (List Char)
  enhanced : Bool
deriving DecidableEq

/-- Truthiness of `issue.get('context_improvement')`: the key is present and
the string is non-empty. -/
def hasImprovement (i : GrammarIssue) : Bool :=
  match i.context_improvement with
  | some s => !s.isEmpty
  | none => false

/-- The guard `if issue.get('context_improvement') and issue.get('enhanced')`
deciding whether an issue participates in patching. -/
def qualifies (i : GrammarIssue) : Bool :=
  hasImprovement i && i.enhanced

/-- The ASCII double-quote character compared against by
`improvement.startswith('"') and improvement.endswith('"')`. -/
def dq : Char := Char.ofNat 34

/-- The quote-stripping step of `apply_ai_context_improvements`:
if the improvement starts and ends with `"` the source uses
`improvement[1:-1]`, otherwise the improvement verbatim. -/
def stripQuotes (s : List Char) : List Char :=
  if s.head? = some dq ∧ s.getLast? = some dq then (s.drop 1).dropLast else s

/-- One iteration of the loop body of `apply_ai_context_improvements`:
guard on `context_improvement`/`enhanced`, strip quotes, then splice
`improved_text[:offset] + replacement + improved_text[offset + length:]`
(Python slices clamp out-of-range indices, exactly as `List.take`/`List.drop`
do). -/
def applyOne (t : List Char) (i : GrammarIssue) : List Char :=
  if qualifies i then
    let replacement := stripQuotes (i.context_improvement.getD [])
    t.take i.offset ++ replacement ++ t.drop (i.offset + i.length)
  else t

/-- Stable insertion used to model
`sorted(enhanced_issues, key=lambda x: x.get('offset', 0), reverse=True)`:
a new element goes after every already-placed element with an offset ≥ its
own, which is exactly descending order with ties kept in input order. -/
def insertByDesc (x : GrammarIssue) : List GrammarIssue → List GrammarIssue
  | [] => [x]
  | y :: ys => if x.offset ≤ y.offset then y :: insertByDesc x ys else x :: y :: ys

/-- `sorted(..., key=lambda x: x.get('offset', 0), reverse=True)`:
the stable descending-by-offset permutation of the list. -/
def sortByOffsetDesc (l : List GrammarIssue) : List GrammarIssue :=
  l.foldl (fun acc x => insertByDesc x acc) []

/-- `apply_ai_context_improvements(text, enhanced_issues)` from
`app/services/modify.py`: return `text` for an empty issue list, otherwise
sort by offset descending and apply each qualifying replacement in turn. -/
def applyAiContextImprovements (text : List Char) (enhanced_issues : List GrammarIssue) :
    List Char :=
  if enhanced_issues.isEmpty then text
  else (sortByOffsetDesc enhanced_issues).foldl applyOne text

/-! ## Security validator — `app/services/security.py`, class `SecurityValidator` -/

/-- `bytes.lower()`: ASCII-lowercase every byte (Python lowercases only
`A`-`Z` in `bytes`). -/
def bytesLower (content : List Nat) : List Nat :=
  content.map (fun b => if 65 ≤ b ∧ b ≤ 90 then b + 32 else b)

/-- The DOCX signature `b'PK\x03\x04'` (ZIP local-file header). -/
def pkZip : List Nat := [0x50, 0x4B, 0x03, 0x04]

/-- The DOCX signature `b'PK\x05\x06'` (ZIP end-of-central-directory). -/
def pkEnd : List Nat := [0x50, 0x4B, 0x05, 0x06]

/-- The DOCX signature `b'PK\x07\x08'` (ZIP data-descriptor marker). -/
def pkSpan : List Nat := [0x50, 0x4B, 0x07, 0x08]

/-- `self.allowed_signatures`: the magic-number table, keyed by type name
(`none` for a key not in the dict). -/
def allowedSignatures (t : String) : Option (List (List Nat)) :=
  if t = "pdf" then some [strBytes "%PDF"]
  else if t = "docx" then some [pkZip, pkEnd, pkSpan]
  else none

/-- `self.max_file_sizes`: maximum sizes in bytes per extension
(`none` for a key not in the dict). -/
def maxFileSizes (t : String) : Option Nat :=
  if t = "pdf" then some (50 * 1024 * 1024)
  else if t = "docx" then some (25 * 1024 * 1024)
  else none

/-- `self.suspicious_patterns`: the fixed byte denylist. -/
def suspiciousPatterns : List (List Nat) :=
  [strBytes "<script", strBytes "javascript:", strBytes "vbscript:",
   strBytes "<iframe", strBytes "<object", strBytes "<embed"]

/-- `_detect_file_type`: magic-number sniffing.  Only `%PDF`, `PK\x03\x04`
and `PK\x05\x06` are recognized; everything else (including `PK\x07\x08`)
is `unknown`, as is any content shorter than 4 bytes. -/
def detectFileType (content : List Nat) : String :=
  if 4 ≤ content.length then
    if listStartsWith (strBytes "%PDF") content then "pdf"
    else if listStartsWith pkZip content || listStartsWith pkEnd content then "docx"
    else "unknown"
  else "unknown"

/-- Python `list.rfind`-style split used by `PurePath.suffix`: walking the
reversed name, return the characters after the last `.` together with the
characters before it (both reversed), or `none` when there is no dot. -/
def splitFirst (c : Char) : List Char → Option (List Char × List Char)
  | [] => none
  | x :: xs =>
      if x = c then some ([], xs)
      else (splitFirst c xs).map (fun p => (x :: p.1, p.2))

/-- `PurePath(name).suffix` for a single path component: the substring from
the last dot, provided that dot is neither the first nor the last character
of the name; otherwise the empty string. -/
def pySuffix (name : List Char) : List Char :=
  match splitFirst '.' name.reverse with
  | none => []
  | some (afterRev, beforeRev) =>
      if beforeRev.isEmpty then []          -- dot at position 0: hidden file, no suffix
      else if afterRev.isEmpty then []      -- dot is the final character: no suffix
      else '.' :: afterRev.reverse

/-- `_get_file_extension`: `Path(filename).suffix.lower().lstrip('.')`.
`Path(...).name` is the last non-empty `/`-separated component (pathlib
drops empty components); `lower` only moves ASCII letters for the extensions
involved here; `lstrip('.')` drops the leading dots of the suffix. -/
def getFileExtension (filename : String) : List Char :=
  let name := ((filename.data.splitOn '/').filter (fun c => !c.isEmpty)).getLastD []
  ((pySuffix name).map Char.toLower).dropWhile (fun c => c = '.')

/-- `_validate_file_signature`: the content must start with one of the
signatures registered for the claimed type; a type absent from the table
fails outright. -/
def validateFileSignature (content : List Nat) (expected_type : String) : Bool :=
  match allowedSignatures expected_type with
  | none => false
  | some sigs => sigs.any (fun s => listStartsWith s content)

/-- The message `f"Pattern '{pattern.decode()}' detected"` recorded per
matching denylist pattern (the patterns are pure ASCII, so `decode()` maps
each byte to the character of the same code). -/
def patternDetectedMsg (p : List Nat) : String :=
  String.mk ("Pattern ".data ++ [Char.ofNat 39] ++ p.map Char.ofNat
    ++ [Char.ofNat 39] ++ " detected".data)

/-- `_check_suspicious_content`: case-insensitive substring search of every
denylist pattern over the whole buffer, collecting a message per hit. -/
def checkSuspiciousContent (content : List Nat) : List String :=
  suspiciousPatterns.filterMap (fun p =>
    if listContains (bytesLower p) (bytesLower content) then some (patternDetectedMsg p)
    else none)

/-- `_validate_extension_match`: the claimed extension must equal the sniffed
type and be one of `pdf` / `docx`. -/
def validateExtensionMatch (content : List Nat) (extension : String) : Bool :=
  let detected := detectFileType content
  (extension = "pdf" ∧ detected = "pdf") ∨ (extension = "docx" ∧ detected = "docx")

/-- Whether a byte is a UTF-8 continuation byte (`0x80`-`0xBF`). -/
def isCont (b : Nat) : Bool := 0x80 ≤ b && b ≤ 0xBF

/-- Worker for `utf8DecodeIgnore`.  Each step consumes at least one byte, so
the byte count of the original buffer serves as structurally decreasing fuel
(the fuel never runs out on the wrapper's call; it exists only to make the
recursion structural and hence computable by the kernel). -/
def utf8DecodeIgnoreAux : Nat → List Nat → List Nat
  | _, [] => []
  | 0, _ => []
  | fuel + 1, b :: rest =>
    if b < 0x80 then b :: utf8DecodeIgnoreAux fuel rest
    else if 0xC2 ≤ b ∧ b ≤ 0xDF then
      match rest with
      | [] => []
      | c1 :: rest1 =>
          if isCont c1 then ((b - 0xC0) * 64 + (c1 - 0x80)) :: utf8DecodeIgnoreAux fuel rest1
          else utf8DecodeIgnoreAux fuel (c1 :: rest1)
    else if 0xE0 ≤ b ∧ b ≤ 0xEF then
      match rest with
      | [] => []
      | c1 :: rest1 =>
          let okC1 : Bool :=
            if b = 0xE0 then 0xA0 ≤ c1 && c1 ≤ 0xBF
            else if b = 0xED then 0x80 ≤ c1 && c1 ≤ 0x9F
            else isCont c1
          if okC1 then
            match rest1 with
            | [] => []
            | c2 :: rest2 =>
                if isCont c2 then
                  ((b - 0xE0) * 4096 + (c1 - 0x80) * 64 + (c2 - 0x80))
                    :: utf8DecodeIgnoreAux fuel rest2
                else utf8DecodeIgnoreAux fuel (c2 :: rest2)
          else utf8DecodeIgnoreAux fuel (c1 :: rest1)
    else if 0xF0 ≤ b ∧ b ≤ 0xF4 then
      match rest with
      | [] => []
      | c1 :: rest1 =>
          let okC1 : Bool :=
            if b = 0xF0 then 0x90 ≤ c1 && c1 ≤ 0xBF
            else if b = 0xF4 then 0x80 ≤ c1 && c1 ≤ 0x8F
            else isCont c1
          if okC1 then
            match rest1 with
            | [] => []
            | c2 :: rest2 =>
                if isCont c2 then
                  match rest2 with
                  | [] => []
                  | c3 :: rest3 =>
                      if isCont c3 then
                        ((b - 0xF0) * 262144 + (c1 - 0x80) * 4096 + (c2 - 0x80) * 64
                          + (c3 - 0x80)) :: utf8DecodeIgnoreAux fuel rest3
                      else utf8DecodeIgnoreAux fuel (c3 :: rest3)
                else utf8DecodeIgnoreAux fuel (c2 :: rest2)
          else utf8DecodeIgnoreAux fuel (c1 :: rest1)
    else utf8DecodeIgnoreAux fuel rest

/-- `content.decode('utf-8', errors='ignore')` as a list of code points:
CPython's UTF-8 decoder, with the `ignore` handler dropping each maximal
invalid subpart (an invalid lead byte is dropped alone; a lead byte whose
continuation fails is dropped together with the continuation bytes already
validated; a sequence truncated at end of input is dropped). -/
def utf8DecodeIgnore (l : List Nat) : List Nat :=
  utf8DecodeIgnoreAux l.length l

/-- `str.lower()` restricted to ASCII code points.  The denylist keywords the
analysis searches for are pure ASCII; the handful of non-ASCII code points
whose Unicode lowercase differs is not modelled. -/
def codesLower (cs : List Nat) : List Nat :=
  cs.map (fun c => if 65 ≤ c ∧ c ≤ 90 then c + 32 else c)

/-- `content.decode('utf-8', errors='ignore').lower()` as code points. -/
def decodeLower (content : List Nat) : List Nat :=
  codesLower (utf8DecodeIgnore content)

/-- The result dict of `_analyze_content_security`. -/
structure ContentAnalysis where
  executable_code : Bool
  external_links : Bool
  embedded_objects : Bool
  keyword_content : Bool  -- the source key is spelled with the m-word for Office macros
deriving DecidableEq

/-- `_analyze_content_security`: decode the buffer (ignoring undecodable
bytes), lowercase it, and set one boolean per marker family found. -/
def analyzeContentSecurity (content : List Nat) : ContentAnalysis :=
  let content_str := decodeLower content
  { executable_code :=
      [strBytes "<script", strBytes "javascript:", strBytes "vbscript:"].any
        (fun p => listContains p content_str)
    external_links :=
      [strBytes "http://", strBytes "https://", strBytes "ftp://"].any
        (fun p => listContains p content_str)
    embedded_objects :=
      [strBytes "<object", strBytes "<embed", strBytes "<iframe"].any
        (fun p => listContains p content_str)
    keyword_content :=
      [strBytes "vba", strBytes "macro", strBytes "vbscript"].any
        (fun p => listContains p content_str) }

/-- `_is_content_readable`: at least 10% of the bytes are printable ASCII.
The source compares `printable_chars > len(content) * 0.1` in floating point;
this model states the same proportion exactly as `10 * printable > len`. -/
def isContentReadable (content : List Nat) : Bool :=
  10 * (content.filter (fun b => 32 ≤ b ∧ b ≤ 126)).length > content.length

/-- `_validate_pdf_structure`: header plus a trailer-ish marker. -/
def validatePdfStructure (content : List Nat) : Bool :=
  listContains (strBytes "%PDF") content &&
    (listContains (strBytes "trailer") content || listContains (strBytes "startxref") content)

/-- `_validate_docx_structure`: ZIP local header plus the content-types entry. -/
def validateDocxStructure (content : List Nat) : Bool :=
  listContains pkZip content && listContains (strBytes "[Content_Types].xml") content

/-- The result dict of `_check_file_integrity`.  The `pdf_structure` /
`docx_structure` keys are only present (`some`) for content starting with
`%PDF` / `PK` respectively. -/
structure FileIntegrity where
  file_size_valid : Bool
  content_readable : Bool
  structure_valid : Bool
  pdf_structure : Option Bool
  docx_structure : Option Bool
deriving DecidableEq

/-- `_check_file_integrity`. -/
def checkFileIntegrity (content : List Nat) : FileIntegrity :=
  { file_size_valid := content.length > 0
    content_readable := isContentReadable content
    structure_valid := true
    pdf_structure :=
      if listStartsWith (strBytes "%PDF") content then some (validatePdfStructure content)
      else none
    docx_structure :=
      if ¬ listStartsWith (strBytes "%PDF") content ∧ listStartsWith (strBytes "PK") content
      then some (validateDocxStructure content) else none }

/-- The base summand of `_calculate_risk_score` chosen by file type. -/
def riskBase (file_type : String) : Nat :=
  if file_type = "pdf" then 10 else if file_type = "docx" then 15 else 0

/-- `_calculate_risk_score`: the running accumulator of the source —
type base, then the four content-analysis surcharges, then the large-file
surcharge, capped by `min(risk_score, 100)`. -/
def calculateRiskScore (content : List Nat) (file_type : String) : Nat :=
  let r0 : Nat := 0
  let r1 := if file_type = "pdf" then r0 + 10
            else if file_type = "docx" then r0 + 15 else r0
  let ca := analyzeContentSecurity content
  let r2 := if ca.executable_code then r1 + 40 else r1
  let r3 := if ca.embedded_objects then r2 + 25 else r2
  let r4 := if ca.keyword_content then r3 + 30 else r3
  let r5 := if ca.external_links then r4 + 15 else r4
  let r6 := if content.length > 10 * 1024 * 1024 then r5 + 10 else r5
  min r6 100

/-- The `security_checks` sub-dict of the validation report: empty initially,
replaced with the suspicious-pattern list on a suspicious-content rejection,
and replaced wholesale with the three diagnostic entries on success. -/
inductive SecurityChecks where
  | empty
  | suspicious (found : List String)
  | full (file_integrity : FileIntegrity) (content_analysis : ContentAnalysis)
      (risk_score : Nat)
deriving DecidableEq

/-- The `validation_result` dict built by `validate_file`.  The
`file_hash` key (a SHA-256 hex digest) is not modelled; no claim
refers to it. -/
structure ValidationResult where
  filename : String
  file_size : Nat
  file_type : String
  security_checks : SecurityChecks
deriving DecidableEq

/-- The size-rejection message
`f"File too large. Maximum size: {...:.1f}MB"`, which renders as `50.0` for
`pdf` and `25.0` for `docx` (the only extensions with a configured size). -/
def fileTooLargeMsg (extension : String) : String :=
  if extension = "pdf" then "File too large. Maximum size: 50.0MB"
  else "File too large. Maximum size: 25.0MB"

/-- `validate_file(file_content, filename)`: the four gating checks in source
order — size, signature, suspicious content, extension/content agreement —
each short-circuiting with its message, and on success the report with the
integrity/analysis/risk diagnostics filled in. -/
def validateFile (file_content : List Nat) (filename : String) :
    Bool × String × ValidationResult :=
  let validation_result : ValidationResult :=
    { filename := filename
      file_size := file_content.length
      file_type := detectFileType file_content
      security_checks := .empty }
  let file_extension := String.mk (getFileExtension filename)
  let sizeRejected : Bool :=
    match maxFileSizes file_extension with
    | some m => decide (file_content.length > m)
    | none => false
  if sizeRejected then
    (false, fileTooLargeMsg file_extension, validation_result)
  else if ¬ validateFileSignature file_content file_extension then
    (false, "Invalid file signature detected", validation_result)
  else
    let suspicious_found := checkSuspiciousContent file_content
    if ¬ suspicious_found.isEmpty then
      (false, "Suspicious content detected in file",
        { validation_result with security_checks := .suspicious suspicious_found })
    else if ¬ validateExtensionMatch file_content file_extension then
      (false, "File extension does not match file content", validation_result)
    else
      (true, "File validation passed",
        { validation_result with
            security_checks := .full (checkFileIntegrity file_content)
              (analyzeContentSecurity file_content)
              (calculateRiskScore file_content file_extension) })

/-! ## Result cache — `app/services/cache.py`, class `DocumentCache`

The on-disk cache directory is modelled as an association list from cache
keys to stored files; `time.time()` is an explicit `now` argument; the
stored JSON documents are `JsonVal` values.  `_get_cache_key` concatenates
`md5(content)` and `md5(filename)`; the digests are not reimplemented — the
key is modelled as the `(content, filename)` pair itself, which determines
the source's key (the two agree up to MD5 collisions). -/

/-- A JSON value as written/read by `json.dump` / `json.load` (numbers
restricted to the naturals, which covers the integer timestamps used
here). -/
inductive JsonVal where
  | null
  | bool (b : Bool)
  | num (n : Nat)
  | str (s : String)
  | arr (elems : List JsonVal)
  | obj (fields : List (String × JsonVal))

/-- Dictionary access `v[key]` on a JSON object (as used by the caller
`cached_result['data']` in `app/main.py`). -/
def jsonField (key : String) : JsonVal → Option JsonVal
  | .obj fields =>
      match fields.find? (fun f => f.1 = key) with
      | some f => some f.2
      | none => none
  | _ => none

/-- Stand-in for `_get_cache_key(content, filename)`. -/
abbrev CacheKey : Type := List Nat × String

/-- `_get_cache_key`: deterministic key from the content and filename. -/
def cacheKey (content : List Nat) (filename : String) : CacheKey :=
  (content, filename)

/-- One file of the cache directory: its filesystem modification time
(`stat().st_mtime`, set when the file is written) and the JSON document it
holds. -/
structure CacheFile where
  mtime : Nat
  contents : JsonVal

/-- The cache directory: association of cache keys to files. -/
abbrev CacheState : Type := List (CacheKey × CacheFile)

/-- Reading the file stored for a key (`cache_path.exists()` + `json.load`). -/
def lookupEntry : CacheState → CacheKey → Option CacheFile
  | [], _ => none
  | (k', f) :: rest, k => if k' = k then some f else lookupEntry rest k

/-- `cache_path.unlink()`: remove the file stored for a key. -/
def eraseEntry : CacheState → CacheKey → CacheState
  | [], _ => []
  | (k', f) :: rest, k =>
      if k' = k then eraseEntry rest k else (k', f) :: eraseEntry rest k

/-- Writing (or wholesale overwriting) the file for a key, stamping the
current time as its modification time. -/
def writeEntry (s : CacheState) (k : CacheKey) (f : CacheFile) : CacheState :=
  eraseEntry s k ++ [(k, f)]

/-- The JSON document `{'timestamp': ..., 'filename': ..., 'data': ...}`
assembled by `DocumentCache.set`. -/
def cacheDocument (now : Nat) (filename : String) (data : JsonVal) : JsonVal :=
  .obj [("timestamp", .num now), ("filename", .str filename), ("data", data)]

/-- `DocumentCache.set(content, filename, data)` at time `now`. -/
def cacheSet (s : CacheState) (now : Nat) (content : List Nat) (filename : String)
    (data : JsonVal) : CacheState :=
  writeEntry s (cacheKey content filename) ⟨now, cacheDocument now filename data⟩

/-- `DocumentCache.get(content, filename)` at time `now` for a cache with
max age `maxAge` seconds: absent file ⇒ miss; file older than `maxAge` ⇒
the file is deleted (lazy expiry) and the call is a miss; otherwise the
parsed JSON document is returned.  The pair carries the resulting directory
state alongside the return value. -/
def cacheGet (maxAge : Nat) (s : CacheState) (now : Nat) (content : List Nat)
    (filename : String) : Option JsonVal × CacheState :=
  let k := cacheKey content filename
  match lookupEntry s k with
  | none => (none, s)
  | some f =>
      if now - f.mtime > maxAge then (none, eraseEntry s k)
      else (some f.contents, s)

/-- `DocumentCache.clear_expired()` at time `now`: delete every file older
than `maxAge` and return how many were removed (paired with the resulting
directory state). -/
def clearExpired (maxAge : Nat) (s : CacheState) (now : Nat) : Nat × CacheState :=
  match s with
  | [] => (0, [])
  | e :: rest =>
      let r := clearExpired maxAge rest now
      if now - e.2.mtime > maxAge then (r.1 + 1, r.2) else (r.1, e :: r.2)

/-- `DocumentCache.clear_all()`: delete every file, returning the count. -/
def clearAll (s : CacheState) : Nat × CacheState :=
  (s.length, [])

/-- A concrete one-file cache directory used to instantiate the expiry
theorems: the file for key `([1], "a")` was written at time 0. -/
def sampleCacheState : CacheState := [(([1], "a"), ⟨0, JsonVal.num 5⟩)]

/-! ## Cache lemmas -/

theorem lookupEntry_eraseEntry_append (s : CacheState) (k : CacheKey) (f : CacheFile) :
    lookupEntry (eraseEntry s k ++ [(k, f)]) k = some f := by
  induction s with
  | nil => simp [eraseEntry, lookupEntry]
  | cons e rest ih =>
      by_cases h : e.1 = k
      · simpa [eraseEntry, h] using ih
      · simpa [eraseEntry, lookupEntry, h] using ih

theorem lookupEntry_writeEntry_self (s : CacheState) (k : CacheKey) (f : CacheFile) :
    lookupEntry (writeEntry s k f) k = some f :=
  lookupEntry_eraseEntry_append s k f

theorem mem_of_lookupEntry {s : CacheState} {k : CacheKey} {f : CacheFile}
    (h : lookupEntry s k = some f) : (k, f) ∈ s := by
  induction s with
  | nil => simp [lookupEntry] at h
  | cons e rest ih =>
      obtain ⟨k', g⟩ := e
      by_cases he : k' = k
      · simp [lookupEntry, he] at h
        subst he
        subst h
        exact List.mem_cons_self _ _
      · simp [lookupEntry, he] at h
        exact List.mem_cons_of_mem _ (ih h)

theorem clearExpired_snd (maxAge : Nat) (s : CacheState) (now : Nat) :
    (clearExpired maxAge s now).2
      = s.filter (fun e => !decide (maxAge < now - e.2.mtime)) := by
  induction s with
  | nil => rfl
  | cons e rest ih =>
      by_cases h : maxAge < now - e.2.mtime <;>
        simp [clearExpired, h, ih]

theorem clearExpired_fst (maxAge : Nat) (s : CacheState) (now : Nat) :
    (clearExpired maxAge s now).1
      = (s.filter (fun e => decide (maxAge < now - e.2.mtime))).length := by
  induction s with
  | nil => rfl
  | cons e rest ih =>
      by_cases h : maxAge < now - e.2.mtime <;>
        simp [clearExpired, h, ih]

/-! ## Claim C1 — cache round-trip -/

/-- **C1** (counterexample to the claim as stated): storing payload `7` under
content `[37]` / filename `"a"` and immediately looking the pair up does
*not* return the payload: `DocumentCache.get` returns the whole stored JSON
document `{'timestamp': ..., 'filename': ..., 'data': ...}`, not its `data`
field. -/
theorem c1_counterexample_get_returns_document :
    (cacheGet 86400 (cacheSet [] 0 [37] "a" (.num 7)) 0 [37] "a").1
      ≠ some (JsonVal.num 7) := by
  intro h
  rw [show (cacheGet 86400 (cacheSet [] 0 [37] "a" (.num 7)) 0 [37] "a").1
      = some (cacheDocument 0 "a" (.num 7)) from rfl] at h
  simp [cacheDocument] at h

/-- **C1** (amended): for every cache state, clock value, content, filename
and payload, `set` followed immediately by `get` for the same pair returns
the stored JSON document (write timestamp, filename, payload) without
touching the state, and that document's `data` field is exactly the payload
that was stored. -/
theorem c1_cache_roundtrip (maxAge : Nat) (s : CacheState) (now : Nat)
    (content : List Nat) (filename : String) (payload : JsonVal) :
    cacheGet maxAge (cacheSet s now content filename payload) now content filename
      = (some (cacheDocument now filename payload),
         cacheSet s now content filename payload)
    ∧ jsonField "data" (cacheDocument now filename payload) = some payload := by
  constructor
  · simp only [cacheGet, cacheSet]
    rw [lookupEntry_writeEntry_self]
    simp
  · rfl

/-! ## Claim C3 — expiry: lazy reclaim on lookup, sweep removes and counts -/

/-- **C3**: if the cache holds a file for the key of `(content, filename)`
whose age exceeds the max age, then `get` misses and deletes that file
(lazy expiry), and `clear_expired` removes every expired file — this one
included — and returns the number of removed files, which therefore counts
this entry (it is at least 1). -/
theorem c3_expired_entry_reclaimed (maxAge : Nat) (s : CacheState) (now : Nat)
    (content : List Nat) (filename : String) (f : CacheFile)
    (hlook : lookupEntry s (cacheKey content filename) = some f)
    (hexp : maxAge < now - f.mtime) :
    cacheGet maxAge s now content filename
        = (none, eraseEntry s (cacheKey content filename))
    ∧ (clearExpired maxAge s now).2
        = s.filter (fun e => !decide (maxAge < now - e.2.mtime))
    ∧ (cacheKey content filename, f) ∉ (clearExpired maxAge s now).2
    ∧ (clearExpired maxAge s now).1
        = (s.filter (fun e => decide (maxAge < now - e.2.mtime))).length
    ∧ 1 ≤ (clearExpired maxAge s now).1 := by
  refine ⟨?_, clearExpired_snd maxAge s now, ?_, clearExpired_fst maxAge s now, ?_⟩
  · simp only [cacheGet]
    rw [hlook]
    simp [hexp]
  · rw [clearExpired_snd]
    intro hmem
    rw [List.mem_filter] at hmem
    simp [hexp] at hmem
  · rw [clearExpired_fst]
    have hm : (cacheKey content filename, f)
        ∈ s.filter (fun e => decide (maxAge < now - e.2.mtime)) :=
      List.mem_filter.mpr ⟨mem_of_lookupEntry hlook, by simp [hexp]⟩
    exact List.length_pos_of_mem hm

/-- **C3** (witness): a concrete one-entry cache, 100 seconds old with a
10-second max age, satisfies the hypotheses, so the lazy-expiry and sweep
conclusions hold for it. -/
theorem c3_expired_entry_reclaimed_witness :
    lookupEntry sampleCacheState (cacheKey [1] "a")
        = some ⟨0, JsonVal.num 5⟩
    ∧ (10 : Nat) < 100 - (0 : Nat)
    ∧ (cacheGet 10 sampleCacheState 100 [1] "a"
          = (none, eraseEntry sampleCacheState (cacheKey [1] "a"))
        ∧ (clearExpired 10 sampleCacheState 100).2
            = sampleCacheState.filter (fun e => !decide (10 < 100 - e.2.mtime))
        ∧ (cacheKey [1] "a", (⟨0, JsonVal.num 5⟩ : CacheFile))
            ∉ (clearExpired 10 sampleCacheState 100).2
        ∧ (clearExpired 10 sampleCacheState 100).1
            = (sampleCacheState.filter (fun e => decide (10 < 100 - e.2.mtime))).length
        ∧ 1 ≤ (clearExpired 10 sampleCacheState 100).1) :=
  ⟨rfl, by decide,
   c3_expired_entry_reclaimed 10 sampleCacheState 100 [1] "a" ⟨0, JsonVal.num 5⟩
     rfl (by decide)⟩

/-! ## Patcher lemmas -/

/-- Descending-by-offset sortedness, the invariant maintained by
`insertByDesc`. -/
def SortedDesc (l : List GrammarIssue) : Prop :=
  l.Pairwise (fun a b => b.offset ≤ a.offset)

theorem mem_insertByDesc {a x : GrammarIssue} {m : List GrammarIssue} :
    a ∈ insertByDesc x m ↔ a = x ∨ a ∈ m := by
  induction m with
  | nil => simp [insertByDesc]
  | cons y ys ih =>
      by_cases h : x.offset ≤ y.offset
      · simp only [insertByDesc, if_pos h, List.mem_cons, ih]
        tauto
      · simp only [insertByDesc, if_neg h, List.mem_cons]

theorem sortedDesc_insertByDesc {x : GrammarIssue} {m : List GrammarIssue}
    (hm : SortedDesc m) : SortedDesc (insertByDesc x m) := by
  induction m with
  | nil => simp [insertByDesc, SortedDesc]
  | cons y ys ih =>
      rw [SortedDesc, List.pairwise_cons] at hm
      by_cases h : x.offset ≤ y.offset
      · rw [SortedDesc, insertByDesc, if_pos h, List.pairwise_cons]
        refine ⟨?_, ih hm.2⟩
        intro a ha
        rcases mem_insertByDesc.mp ha with rfl | ha
        · exact h
        · exact hm.1 a ha
      · rw [SortedDesc, insertByDesc, if_neg h, List.pairwise_cons]
        refine ⟨?_, List.pairwise_cons.mpr hm⟩
        intro a ha
        rcases ha with _ | ha
        · exact Nat.le_of_lt (Nat.lt_of_not_le h)
        · exact Nat.le_trans (hm.1 a (by assumption)) (Nat.le_of_lt (Nat.lt_of_not_le h))

theorem insertByDesc_of_forall_lt {x : GrammarIssue} {m : List GrammarIssue}
    (h : ∀ z ∈ m, z.offset < x.offset) : insertByDesc x m = x :: m := by
  cases m with
  | nil => rfl
  | cons y ys =>
      rw [insertByDesc, if_neg]
      exact Nat.not_le.mpr (h y (List.mem_cons_self y ys))

theorem filter_insertByDesc (p : GrammarIssue → Bool) {x : GrammarIssue}
    {m : List GrammarIssue} (hm : SortedDesc m) :
    (insertByDesc x m).filter p
      = if p x then insertByDesc x (m.filter p) else m.filter p := by
  induction m with
  | nil => by_cases hp : p x <;> simp [insertByDesc, hp]
  | cons y ys ih =>
      rw [SortedDesc, List.pairwise_cons] at hm
      by_cases h : x.offset ≤ y.offset
      · rw [insertByDesc, if_pos h]
        by_cases hy : p y
        · by_cases hp : p x <;>
            simp [List.filter_cons, hy, hp, ih hm.2, insertByDesc, h]
        · by_cases hp : p x <;>
            simp [List.filter_cons, hy, hp, ih hm.2]
      · rw [insertByDesc, if_neg h]
        have hall : ∀ z ∈ (y :: ys).filter p, z.offset < x.offset := by
          intro z hz
          have hz' := List.mem_filter.mp hz
          rcases hz'.1 with _ | hz''
          · exact Nat.lt_of_not_le h
          · exact Nat.lt_of_le_of_lt (hm.1 z (by assumption)) (Nat.lt_of_not_le h)
        by_cases hp : p x
        · rw [List.filter_cons_of_pos hp, if_pos hp, insertByDesc_of_forall_lt hall]
        · rw [List.filter_cons_of_neg hp, if_neg hp]

theorem filter_sortFold (p : GrammarIssue → Bool) :
    ∀ (l acc : List GrammarIssue), SortedDesc acc →
      (l.foldl (fun acc x => insertByDesc x acc) acc).filter p
        = (l.filter p).foldl (fun acc x => insertByDesc x acc) (acc.filter p) := by
  intro l
  induction l with
  | nil => intro acc _; rfl
  | cons x xs ih =>
      intro acc hacc
      rw [List.foldl_cons, ih (insertByDesc x acc) (sortedDesc_insertByDesc hacc),
        filter_insertByDesc p hacc]
      by_cases hp : p x
      · rw [if_pos hp, List.filter_cons_of_pos hp, List.foldl_cons]
      · rw [if_neg hp, List.filter_cons_of_neg hp]

theorem filter_sortByOffsetDesc (p : GrammarIssue → Bool) (l : List GrammarIssue) :
    (sortByOffsetDesc l).filter p = sortByOffsetDesc (l.filter p) :=
  filter_sortFold p l [] (List.Pairwise.nil)

theorem foldl_applyOne_filter_qualifies :
    ∀ (m : List GrammarIssue) (t : List Char),
      m.foldl applyOne t = (m.filter qualifies).foldl applyOne t := by
  intro m
  induction m with
  | nil => intro t; rfl
  | cons x xs ih =>
      intro t
      by_cases hq : qualifies x
      · rw [List.foldl_cons, List.filter_cons_of_pos hq, List.foldl_cons, ih]
      · rw [List.foldl_cons, List.filter_cons_of_neg hq, ih,
          show applyOne t x = t from by simp [applyOne, hq]]

/-! ## Claim C6 — empty list and non-qualifying issues are no-ops -/

/-- **C6**: `apply_ai_context_improvements` returns the text unchanged on an
empty issue list, and in general behaves exactly as if every issue lacking a
non-empty improvement or the enhanced marker had been removed from the input
list — such issues are skipped and the text at their spans is untouched. -/
theorem c6_empty_and_skip (text : List Char) (issues : List GrammarIssue) :
    applyAiContextImprovements text [] = text
    ∧ applyAiContextImprovements text issues
        = applyAiContextImprovements text (issues.filter qualifies) := by
  refine ⟨rfl, ?_⟩
  have key : (sortByOffsetDesc issues).foldl applyOne text
      = (sortByOffsetDesc (issues.filter qualifies)).foldl applyOne text := by
    rw [foldl_applyOne_filter_qualifies, filter_sortByOffsetDesc]
  by_cases h : issues.isEmpty
  · rw [List.isEmpty_iff] at h
    subst h
    rfl
  · by_cases hf : (issues.filter qualifies).isEmpty
    · rw [applyAiContextImprovements, if_neg h, applyAiContextImprovements, if_pos hf,
        key, List.isEmpty_iff.mp hf]
      rfl
    · rw [applyAiContextImprovements, if_neg h, applyAiContextImprovements, if_neg hf,
        key]

/-! ## Claim C5 — order-independence of non-overlapping replacements -/

/-- **C5** (counterexample to the claim as stated, in both parts).  First:
two enhanced issues with non-empty improvements whose spans `[5, 5)` and
`[5, 5)` are empty — hence do not overlap — produce different outputs in
the two input orders: the sort is stable, so both insertions at offset 5
land in input order.  Second: set-disjointness of the spans, even with
distinct offsets, does not make both replacements land at their
original-text positions — for spans `[5, 15)` (replacement `X`) and the
zero-length `[7, 7)` (insertion `Y`), the higher-offset insertion is applied
first and then destroyed by the lower splice, whose span end also shifts
past the original character at position 14: the output is `01234XEF`, with
no `Y` in it at all. -/
theorem c5_counterexample_nonoverlap_insufficient :
    (applyAiContextImprovements "0123456789".data
        [⟨5, 0, some "A".data, true⟩, ⟨5, 0, some "B".data, true⟩]
      ≠ applyAiContextImprovements "0123456789".data
        [⟨5, 0, some "B".data, true⟩, ⟨5, 0, some "A".data, true⟩])
    ∧ applyAiContextImprovements "0123456789ABCDEF".data
        [⟨5, 10, some "X".data, true⟩, ⟨7, 0, some "Y".data, true⟩]
        = "01234XEF".data
    ∧ 'Y' ∉ "01234XEF".data := by
  refine ⟨by decide, by decide, by decide⟩

/-- **C5** (amended): for two enhanced issues with non-empty improvements
and *distinct offsets*, the output is the same in either input order (both
orders sort to the same descending-offset list, whatever the spans do).
The further conclusion that both replacements land at their original-text
positions additionally requires the spans to be separated — the
lower-offset issue's span must end at or before the higher offset, so that
neither span reaches into or around the other — and to lie within the
buffer; mere set-disjointness of the spans is not enough for it (a
zero-length issue strictly inside the other span is destroyed by the lower
splice). -/
theorem c5_distinct_offsets_order_independent (text : List Char)
    (i1 i2 : GrammarIssue)
    (h1 : qualifies i1 = true) (h2 : qualifies i2 = true)
    (hlt : i1.offset < i2.offset) :
    applyAiContextImprovements text [i1, i2]
        = applyAiContextImprovements text [i2, i1]
    ∧ (i1.offset + i1.length ≤ i2.offset → i2.offset + i2.length ≤ text.length →
        applyAiContextImprovements text [i1, i2]
          = text.take i1.offset
            ++ stripQuotes (i1.context_improvement.getD [])
            ++ (text.take i2.offset).drop (i1.offset + i1.length)
            ++ stripQuotes (i2.context_improvement.getD [])
            ++ text.drop (i2.offset + i2.length)) := by
  have hs1 : sortByOffsetDesc [i1, i2] = [i2, i1] := by
    simp [sortByOffsetDesc, insertByDesc, Nat.not_le.mpr hlt]
  have hs2 : sortByOffsetDesc [i2, i1] = [i2, i1] := by
    simp [sortByOffsetDesc, insertByDesc, Nat.le_of_lt hlt]
  constructor
  · rw [applyAiContextImprovements, applyAiContextImprovements, hs1, hs2]
    rfl
  · intro hdisj hlen
    have ho2 : i2.offset ≤ text.length := Nat.le_trans (Nat.le_add_right _ _) hlen
    have hlenA : (text.take i2.offset).length = i2.offset := by
      rw [List.length_take, Nat.min_eq_left ho2]
    have e2 : applyOne text i2
        = text.take i2.offset ++ stripQuotes (i2.context_improvement.getD [])
          ++ text.drop (i2.offset + i2.length) := by
      rw [applyOne, if_pos h2]
    have e1 : ∀ t : List Char, applyOne t i1
        = t.take i1.offset ++ stripQuotes (i1.context_improvement.getD [])
          ++ t.drop (i1.offset + i1.length) := fun t => by
      rw [applyOne, if_pos h1]
    have ht : (text.take i2.offset ++ stripQuotes (i2.context_improvement.getD [])
          ++ text.drop (i2.offset + i2.length)).take i1.offset
        = text.take i1.offset := by
      rw [List.append_assoc,
        List.take_append_of_le_length (by rw [hlenA]; exact Nat.le_of_lt hlt),
        List.take_take, Nat.min_eq_left (Nat.le_of_lt hlt)]
    have hd : (text.take i2.offset ++ stripQuotes (i2.context_improvement.getD [])
          ++ text.drop (i2.offset + i2.length)).drop (i1.offset + i1.length)
        = (text.take i2.offset).drop (i1.offset + i1.length)
          ++ (stripQuotes (i2.context_improvement.getD [])
              ++ text.drop (i2.offset + i2.length)) := by
      rw [List.append_assoc, List.drop_append_of_le_length (by rw [hlenA]; exact hdisj)]
    rw [applyAiContextImprovements, if_neg (by simp), hs1]
    simp only [List.foldl_cons, List.foldl_nil]
    rw [e2, e1, ht, hd]
    simp [List.append_assoc]

/-- **C5** (witness): the spec's example layout — spans at offsets 5 and 20
of lengths 3, separated and within the buffer — instantiates the
hypotheses: the two input orders agree and both replacements land at their
original positions. -/
theorem c5_distinct_offsets_order_independent_witness :
    qualifies ⟨5, 3, some "is".data, true⟩ = true
    ∧ qualifies ⟨20, 3, some "was".data, true⟩ = true
    ∧ 5 < 20
    ∧ (applyAiContextImprovements "0123456789012345678901234".data
          [⟨5, 3, some "is".data, true⟩, ⟨20, 3, some "was".data, true⟩]
        = applyAiContextImprovements "0123456789012345678901234".data
          [⟨20, 3, some "was".data, true⟩, ⟨5, 3, some "is".data, true⟩]
      ∧ (5 + 3 ≤ 20 → 20 + 3 ≤ "0123456789012345678901234".data.length →
          applyAiContextImprovements "0123456789012345678901234".data
            [⟨5, 3, some "is".data, true⟩, ⟨20, 3, some "was".data, true⟩]
          = "0123456789012345678901234".data.take 5
            ++ stripQuotes ((some "is".data).getD [])
            ++ ("0123456789012345678901234".data.take 20).drop (5 + 3)
            ++ stripQuotes ((some "was".data).getD [])
            ++ "0123456789012345678901234".data.drop (20 + 3))) :=
  ⟨by decide, by decide, by decide,
   c5_distinct_offsets_order_independent "0123456789012345678901234".data
     ⟨5, 3, some "is".data, true⟩ ⟨20, 3, some "was".data, true⟩
     (by decide) (by decide) (by decide)⟩

/-! ## Claim C7 — quote stripping of improvements -/

/-- **C7** (counterexample to the claim as stated): the one-character
improvement consisting of a single double-quote is not wrapped in a matching
*pair* of quote characters, so the claim says it is spliced verbatim; the
code nevertheless strips first and last character (`improvement[1:-1]`),
splicing the empty string instead. -/
theorem c7_counterexample_single_quote_char :
    applyAiContextImprovements "abc".data [⟨0, 1, some [dq], true⟩]
      ≠ "abc".data.take 0 ++ [dq] ++ "abc".data.drop (0 + 1) := by
  decide

/-- **C7** (amended): an applied improvement that starts *and* ends with the
ASCII double-quote character — including the degenerate one-character string
`"` — has its first and last characters dropped before substitution; every
other improvement (single-quoted ones included) is spliced verbatim. -/
theorem c7_quote_stripping (text : List Char) (i : GrammarIssue) (s : List Char)
    (hci : i.context_improvement = some s) (hne : s ≠ []) (hen : i.enhanced = true) :
    (s.head? = some dq ∧ s.getLast? = some dq →
      applyAiContextImprovements text [i]
        = text.take i.offset ++ (s.drop 1).dropLast ++ text.drop (i.offset + i.length))
    ∧ (¬ (s.head? = some dq ∧ s.getLast? = some dq) →
      applyAiContextImprovements text [i]
        = text.take i.offset ++ s ++ text.drop (i.offset + i.length)) := by
  have hq : qualifies i = true := by
    simp [qualifies, hasImprovement, hci, hne, hen]
  have happ : applyAiContextImprovements text [i]
      = text.take i.offset ++ stripQuotes s ++ text.drop (i.offset + i.length) := by
    rw [applyAiContextImprovements, if_neg (by simp), show sortByOffsetDesc [i] = [i] from rfl]
    simp only [List.foldl_cons, List.foldl_nil]
    rw [applyOne, if_pos hq, hci]
    rfl
  constructor
  · intro hquoted
    rw [happ, stripQuotes, if_pos hquoted]
  · intro hnot
    rw [happ, stripQuotes, if_neg hnot]

/-- **C7** (witness): the improvement `"hi"` (double-quoted) is stripped to
`hi`, and the improvement `hi` is spliced verbatim, at concrete inputs. -/
theorem c7_quote_stripping_witness :
    (⟨1, 2, some [dq, 'h', 'i', dq], true⟩ : GrammarIssue).context_improvement
        = some [dq, 'h', 'i', dq]
    ∧ ([dq, 'h', 'i', dq] : List Char) ≠ []
    ∧ (⟨1, 2, some [dq, 'h', 'i', dq], true⟩ : GrammarIssue).enhanced = true
    ∧ (([dq, 'h', 'i', dq] : List Char).head? = some dq
          ∧ ([dq, 'h', 'i', dq] : List Char).getLast? = some dq →
        applyAiContextImprovements "abcde".data [⟨1, 2, some [dq, 'h', 'i', dq], true⟩]
          = "abcde".data.take 1 ++ (([dq, 'h', 'i', dq] : List Char).drop 1).dropLast
            ++ "abcde".data.drop (1 + 2))
    ∧ (¬ (([dq, 'h', 'i', dq] : List Char).head? = some dq
          ∧ ([dq, 'h', 'i', dq] : List Char).getLast? = some dq) →
        applyAiContextImprovements "abcde".data [⟨1, 2, some [dq, 'h', 'i', dq], true⟩]
          = "abcde".data.take 1 ++ [dq, 'h', 'i', dq] ++ "abcde".data.drop (1 + 2)) :=
  ⟨rfl, by decide, rfl,
   (c7_quote_stripping "abcde".data ⟨1, 2, some [dq, 'h', 'i', dq], true⟩
      [dq, 'h', 'i', dq] rfl (by decide) rfl).1,
   (c7_quote_stripping "abcde".data ⟨1, 2, some [dq, 'h', 'i', dq], true⟩
      [dq, 'h', 'i', dq] rfl (by decide) rfl).2⟩

/-! ## Claim C8 — out-of-bounds offsets are clamped, never a fault -/

/-- **C8**: the patcher is a total function (the splice uses Python slice
semantics, i.e. `List.take`/`List.drop`, which clamp); in particular an
applied issue whose offset lies at or beyond the end of the buffer degrades
to appending its replacement at the end — no out-of-range fault occurs. -/
theorem c8_out_of_bounds_clamped (text : List Char) (i : GrammarIssue)
    (hq : qualifies i = true) (hoob : text.length ≤ i.offset) :
    applyAiContextImprovements text [i]
      = text ++ stripQuotes (i.context_improvement.getD []) := by
  rw [applyAiContextImprovements, if_neg (by simp),
    show sortByOffsetDesc [i] = [i] from rfl]
  simp only [List.foldl_cons, List.foldl_nil]
  rw [applyOne, if_pos hq, List.take_of_length_le hoob,
    List.drop_eq_nil_iff.mpr (Nat.le_trans hoob (Nat.le_add_right _ _)),
    List.append_nil]

/-- **C8** (witness): an issue at offset 99 of a 2-character buffer appends
its replacement at the end. -/
theorem c8_out_of_bounds_clamped_witness :
    qualifies ⟨99, 3, some "X".data, true⟩ = true
    ∧ "ab".data.length ≤ 99
    ∧ applyAiContextImprovements "ab".data [⟨99, 3, some "X".data, true⟩]
        = "ab".data ++ stripQuotes ((some "X".data).getD []) :=
  ⟨by decide, by decide,
   c8_out_of_bounds_clamped "ab".data ⟨99, 3, some "X".data, true⟩
     (by decide) (by decide)⟩

/-! ## Validator lemmas -/

theorem listStartsWith_four {a b c d : Nat} {l : List Nat}
    (h : listStartsWith [a, b, c, d] l = true) :
    ∃ rest, l = a :: b :: c :: d :: rest := by
  match l with
  | [] => simp [listStartsWith] at h
  | [x1] => simp [listStartsWith] at h
  | [x1, x2] => simp [listStartsWith] at h
  | [x1, x2, x3] => simp [listStartsWith] at h
  | x1 :: x2 :: x3 :: x4 :: rest =>
      simp [listStartsWith] at h
      obtain ⟨h1, h2, h3, h4⟩ := h
      exact ⟨rest, by simp [h1, h2, h3, h4]⟩

theorem strBytes_pdfMagic : strBytes "%PDF" = [37, 80, 68, 70] := rfl

theorem detectFileType_of_pdf_prefix {content : List Nat}
    (h : listStartsWith (strBytes "%PDF") content = true) :
    detectFileType content = "pdf" := by
  rw [strBytes_pdfMagic] at h
  obtain ⟨rest, rfl⟩ := listStartsWith_four h
  simp [detectFileType, listStartsWith, strBytes_pdfMagic]

theorem detectFileType_of_pkSpan_prefix {content : List Nat}
    (h : listStartsWith pkSpan content = true) :
    detectFileType content = "unknown" := by
  rw [show pkSpan = [80, 75, 7, 8] from rfl] at h
  obtain ⟨rest, rfl⟩ := listStartsWith_four h
  simp [detectFileType, listStartsWith, strBytes_pdfMagic, pkZip, pkEnd]

theorem calculateRiskScore_formula (content : List Nat) (ft : String) :
    calculateRiskScore content ft
      = min (riskBase ft
          + (if (analyzeContentSecurity content).executable_code then 40 else 0)
          + (if (analyzeContentSecurity content).embedded_objects then 25 else 0)
          + (if (analyzeContentSecurity content).keyword_content then 30 else 0)
          + (if (analyzeContentSecurity content).external_links then 15 else 0)
          + (if content.length > 10 * 1024 * 1024 then 10 else 0)) 100 := by
  simp only [calculateRiskScore, riskBase]
  rcases analyzeContentSecurity content with ⟨e, x, o, m⟩
  by_cases hbig : content.length > 10 * 1024 * 1024 <;>
    cases e <;> cases x <;> cases o <;> cases m <;>
      simp [hbig]

/-! ## Claim C2 — `%PDF` buffer: accepted as `.pdf`, rejected as `.docx` -/

/-- **C2** (counterexample to the claim as stated): the 8-byte buffer
`%PDF-1.4` under filename `doc.docx` is rejected, but with the
invalid-signature reason — the signature check against the claimed `docx`
extension fails before the extension/content-agreement check is ever
reached — not with the extension/content-mismatch reason the claim
asserts. -/
theorem c2_counterexample_reason_is_signature :
    (validateFile (strBytes "%PDF-1.4") "doc.docx").1 = false
    ∧ (validateFile (strBytes "%PDF-1.4") "doc.docx").2.1
        ≠ "File extension does not match file content" := by
  constructor
  · decide
  · intro h
    rw [show (validateFile (strBytes "%PDF-1.4") "doc.docx").2.1
        = "Invalid file signature detected" from by decide] at h
    simp at h

/-- **C2** (amended): a buffer starting with `%PDF`, within the PDF size
limit and clean of denylisted substrings, is accepted under a filename with
extension `pdf`; under a filename with extension `docx` it is rejected —
when it is also within the DOCX size limit the rejection reason is the
invalid-signature message (the `docx` signature check fails before the
extension/content check is reached). -/
theorem c2_pdf_buffer_extension_behavior (content : List Nat) (fn1 fn2 : String)
    (hsig : listStartsWith (strBytes "%PDF") content = true)
    (hsize : content.length ≤ 50 * 1024 * 1024)
    (hsusp : checkSuspiciousContent content = [])
    (hext1 : getFileExtension fn1 = "pdf".data)
    (hext2 : getFileExtension fn2 = "docx".data) :
    (validateFile content fn1).1 = true
    ∧ (validateFile content fn2).1 = false
    ∧ (content.length ≤ 25 * 1024 * 1024 →
        (validateFile content fn2).2.1 = "Invalid file signature detected") := by
  have hfe1 : String.mk (getFileExtension fn1) = "pdf" := by rw [hext1]
  have hfe2 : String.mk (getFileExtension fn2) = "docx" := by rw [hext2]
  have hdet : detectFileType content = "pdf" := detectFileType_of_pdf_prefix hsig
  have hsigno : validateFileSignature content "docx" = false := by
    have h' := hsig
    rw [strBytes_pdfMagic] at h'
    obtain ⟨rest, rfl⟩ := listStartsWith_four h'
    simp [validateFileSignature, allowedSignatures, listStartsWith, pkZip, pkEnd, pkSpan]
  refine ⟨?_, ?_, ?_⟩
  · simp only [validateFile, hfe1]
    simp [maxFileSizes, Nat.not_lt.mpr hsize, validateFileSignature, allowedSignatures,
      hsig, hsusp, validateExtensionMatch, hdet]
  · simp only [validateFile, hfe2]
    by_cases hsz : content.length > 25 * 1024 * 1024
    · simp [maxFileSizes, hsz]
    · simp [maxFileSizes, hsz, hsigno]
  · intro hsz2
    simp only [validateFile, hfe2]
    simp [maxFileSizes, Nat.not_lt.mpr hsz2, hsigno]

/-- **C2** (witness): the buffer `%PDF-1.4` with filenames `a.pdf` and
`b.docx` satisfies the hypotheses; it is accepted as `.pdf` and rejected
as `.docx` with the invalid-signature reason. -/
theorem c2_pdf_buffer_extension_behavior_witness :
    listStartsWith (strBytes "%PDF") (strBytes "%PDF-1.4") = true
    ∧ (strBytes "%PDF-1.4").length ≤ 50 * 1024 * 1024
    ∧ checkSuspiciousContent (strBytes "%PDF-1.4") = []
    ∧ getFileExtension "a.pdf" = "pdf".data
    ∧ getFileExtension "b.docx" = "docx".data
    ∧ ((validateFile (strBytes "%PDF-1.4") "a.pdf").1 = true
      ∧ (validateFile (strBytes "%PDF-1.4") "b.docx").1 = false
      ∧ ((strBytes "%PDF-1.4").length ≤ 25 * 1024 * 1024 →
          (validateFile (strBytes "%PDF-1.4") "b.docx").2.1
            = "Invalid file signature detected")) :=
  ⟨by decide, by decide, by decide, by decide, by decide,
   c2_pdf_buffer_extension_behavior (strBytes "%PDF-1.4") "a.pdf" "b.docx"
     (by decide) (by decide) (by decide) (by decide) (by decide)⟩

/-! ## Claim C4 — `<script` anywhere rejects with a suspicious-content report -/

/-- **C4**: any buffer containing the bytes `<script` case-insensitively is
rejected with the suspicious-content reason whenever the filename's
extension passes the size and signature checks, and the report's
`security_checks` records the list of matched denylist patterns, which
contains the `<script` hit. -/
theorem c4_script_rejected (content : List Nat) (fn : String)
    (hscript : listContains (strBytes "<script") (bytesLower content) = true)
    (hsize : ∀ m, maxFileSizes (String.mk (getFileExtension fn)) = some m →
      content.length ≤ m)
    (hsig : validateFileSignature content (String.mk (getFileExtension fn)) = true) :
    (validateFile content fn).1 = false
    ∧ (validateFile content fn).2.1 = "Suspicious content detected in file"
    ∧ (validateFile content fn).2.2.security_checks
        = .suspicious (checkSuspiciousContent content)
    ∧ patternDetectedMsg (strBytes "<script") ∈ checkSuspiciousContent content := by
  have hmem : patternDetectedMsg (strBytes "<script") ∈ checkSuspiciousContent content := by
    rw [checkSuspiciousContent]
    apply List.mem_filterMap.mpr
    refine ⟨strBytes "<script", by simp [suspiciousPatterns], ?_⟩
    rw [show bytesLower (strBytes "<script") = strBytes "<script" from rfl, hscript]
    simp
  have hne : ¬ (checkSuspiciousContent content).isEmpty := by
    rw [List.isEmpty_iff]
    exact List.ne_nil_of_mem hmem
  have hszr : (match maxFileSizes (String.mk (getFileExtension fn)) with
      | some m => decide (content.length > m)
      | none => false) = false := by
    rcases hms : maxFileSizes (String.mk (getFileExtension fn)) with _ | m
    · rfl
    · simp [Nat.not_lt.mpr (hsize m hms)]
  refine ⟨?_, ?_, ?_, hmem⟩
  all_goals simp [validateFile, hszr, hsig, hne]

/-- **C4** (witness): the buffer `%PDF<SCRIPT` under filename `x.pdf` passes
size and signature checks, matches the denylist case-insensitively, and is
rejected with the suspicious-content report. -/
theorem c4_script_rejected_witness :
    listContains (strBytes "<script") (bytesLower (strBytes "%PDF<SCRIPT")) = true
    ∧ (∀ m, maxFileSizes (String.mk (getFileExtension "x.pdf")) = some m →
        (strBytes "%PDF<SCRIPT").length ≤ m)
    ∧ validateFileSignature (strBytes "%PDF<SCRIPT")
        (String.mk (getFileExtension "x.pdf")) = true
    ∧ ((validateFile (strBytes "%PDF<SCRIPT") "x.pdf").1 = false
      ∧ (validateFile (strBytes "%PDF<SCRIPT") "x.pdf").2.1
          = "Suspicious content detected in file"
      ∧ (validateFile (strBytes "%PDF<SCRIPT") "x.pdf").2.2.security_checks
          = .suspicious (checkSuspiciousContent (strBytes "%PDF<SCRIPT"))
      ∧ patternDetectedMsg (strBytes "<script")
          ∈ checkSuspiciousContent (strBytes "%PDF<SCRIPT")) :=
  ⟨by decide, by decide, by decide,
   c4_script_rejected (strBytes "%PDF<SCRIPT") "x.pdf"
     (by decide) (by decide) (by decide)⟩

/-! ## Claim C9 — risk-score formula for accepted files -/

/-- **C9**: for every accepted file, the report carries the risk score
computed from the claimed extension (which acceptance forces to equal the
detected type), and that score equals the clamped sum of the type base —
strictly lower for PDF than DOCX — plus 40 for executable-code markers, 25
for embedded objects, 30 for macro-related keywords, 15 for external links
and 10 for content over 10 MiB, and it never exceeds 100. -/
theorem c9_risk_score_formula (content : List Nat) (fn : String)
    (hacc : (validateFile content fn).1 = true) :
    (validateFile content fn).2.2.security_checks
        = .full (checkFileIntegrity content) (analyzeContentSecurity content)
            (calculateRiskScore content (String.mk (getFileExtension fn)))
    ∧ calculateRiskScore content (String.mk (getFileExtension fn))
        = min (riskBase (String.mk (getFileExtension fn))
            + (if (analyzeContentSecurity content).executable_code then 40 else 0)
            + (if (analyzeContentSecurity content).embedded_objects then 25 else 0)
            + (if (analyzeContentSecurity content).keyword_content then 30 else 0)
            + (if (analyzeContentSecurity content).external_links then 15 else 0)
            + (if content.length > 10 * 1024 * 1024 then 10 else 0)) 100
    ∧ calculateRiskScore content (String.mk (getFileExtension fn)) ≤ 100
    ∧ riskBase "pdf" < riskBase "docx" := by
  refine ⟨?_, calculateRiskScore_formula content _, ?_, by decide⟩
  · simp only [validateFile] at hacc ⊢
    split_ifs at hacc ⊢
    simp_all
  · simp only [calculateRiskScore]
    exact Nat.min_le_right _ _

/-- **C9** (witness): the accepted file `%PDF-1.4 startxref` under `a.pdf`
instantiates the formula (its score is the PDF base 10). -/
theorem c9_risk_score_formula_witness :
    (validateFile (strBytes "%PDF-1.4 startxref") "a.pdf").1 = true
    ∧ ((validateFile (strBytes "%PDF-1.4 startxref") "a.pdf").2.2.security_checks
        = .full (checkFileIntegrity (strBytes "%PDF-1.4 startxref"))
            (analyzeContentSecurity (strBytes "%PDF-1.4 startxref"))
            (calculateRiskScore (strBytes "%PDF-1.4 startxref")
              (String.mk (getFileExtension "a.pdf")))
      ∧ calculateRiskScore (strBytes "%PDF-1.4 startxref")
            (String.mk (getFileExtension "a.pdf"))
          = min (riskBase (String.mk (getFileExtension "a.pdf"))
              + (if (analyzeContentSecurity (strBytes "%PDF-1.4 startxref")).executable_code
                  then 40 else 0)
              + (if (analyzeContentSecurity (strBytes "%PDF-1.4 startxref")).embedded_objects
                  then 25 else 0)
              + (if (analyzeContentSecurity (strBytes "%PDF-1.4 startxref")).keyword_content
                  then 30 else 0)
              + (if (analyzeContentSecurity (strBytes "%PDF-1.4 startxref")).external_links
                  then 15 else 0)
              + (if (strBytes "%PDF-1.4 startxref").length > 10 * 1024 * 1024
                  then 10 else 0)) 100
      ∧ calculateRiskScore (strBytes "%PDF-1.4 startxref")
            (String.mk (getFileExtension "a.pdf")) ≤ 100
      ∧ riskBase "pdf" < riskBase "docx") :=
  ⟨by decide,
   c9_risk_score_formula (strBytes "%PDF-1.4 startxref") "a.pdf" (by decide)⟩

/-! ## Claim C10 — `PK\x07\x08` + `.docx` is always rejected -/

/-- **C10**: a buffer starting with `PK\x07\x08` under a filename whose
extension is `docx` is always rejected: that signature is in the allowed
DOCX signature list, but the type sniffer maps the buffer to `unknown`
(it recognizes only `PK\x03\x04` and `PK\x05\x06` as DOCX), so the
extension/content-agreement check can never pass. -/
theorem c10_pkSpan_docx_always_rejected (content : List Nat) (fn : String)
    (hpk : listStartsWith pkSpan content = true)
    (hext : getFileExtension fn = "docx".data) :
    (validateFile content fn).1 = false
    ∧ pkSpan ∈ (allowedSignatures "docx").getD []
    ∧ detectFileType content = "unknown" := by
  have hfe : String.mk (getFileExtension fn) = "docx" := by rw [hext]
  have hdet : detectFileType content = "unknown" := detectFileType_of_pkSpan_prefix hpk
  refine ⟨?_, by simp [allowedSignatures], hdet⟩
  simp only [validateFile, hfe]
  split_ifs with h1 h2 h3 h4 <;> try rfl
  all_goals simp [validateExtensionMatch, hdet] at h4

/-- **C10** (witness): the buffer `PK\x07\x08hello` with filename `a.docx`
satisfies the hypotheses and is rejected with the sniffer reporting
`unknown`. -/
theorem c10_pkSpan_docx_always_rejected_witness :
    listStartsWith pkSpan (pkSpan ++ strBytes "hello") = true
    ∧ getFileExtension "a.docx" = "docx".data
    ∧ ((validateFile (pkSpan ++ strBytes "hello") "a.docx").1 = false
      ∧ pkSpan ∈ (allowedSignatures "docx").getD []
      ∧ detectFileType (pkSpan ++ strBytes "hello") = "unknown") :=
  ⟨by decide, by decide,
   c10_pkSpan_docx_always_rejected (pkSpan ++ strBytes "hello") "a.docx"
     (by decide) (by decide)⟩

end DocCheck
